import Mathlib

set_option autoImplicit false

/-!
Verification development for the agent-builder repository: a shallow
embedding of the client-side configuration state (AgentContext),
the fallback YAML generator, the chat send handler, the log-stream
update, the agent-name sanitizer, and the index-creation client.

JavaScript objects are embedded as association lists of string keys to
`JValue` (a JSON-like value tree).  `undefined` and `null` are both
modelled as `JValue.null`: every test the embedded code performs on them
(truthiness, `||`, `?.`) treats the two alike.
-/

/-- JSON-like value, the model of a JavaScript runtime value.
Objects are association lists in key-insertion order (JS objects keep
string keys in insertion order and never hold a duplicate key). -/
inductive JValue where
  | null : JValue
  | bool : Bool → JValue
  | num : Int → JValue
  | str : String → JValue
  | arr : List JValue → JValue
  | obj : List (String × JValue) → JValue

/-- JavaScript truthiness of a value (`if (v)`, `v || d`, `!v`).
`null`/`undefined`, `false`, `0`, and the empty string are falsy;
every array and every object (even `{}`) is truthy. -/
def jsTruthy : JValue → Bool
  | .null => false
  | .bool b => b
  | .num n => n != 0
  | .str s => s != ""
  | .arr _ => true
  | .obj _ => true

/-- JavaScript `v || d`. -/
def jsOr (v d : JValue) : JValue :=
  if jsTruthy v then v else d

/-- Lookup of a key in an object (`o[k]`); `none` models `undefined`. -/
def objGet (o : List (String × JValue)) (k : String) : Option JValue :=
  (o.find? (fun p => p.1 == k)).map Prod.snd

/-- Lookup with `JValue.null` standing for an absent key. -/
def objGetD (o : List (String × JValue)) (k : String) : JValue :=
  (objGet o k).getD .null

/-- Assignment `o[k] = v`: overwrite in place when the key exists,
append the new key otherwise (JS key-insertion-order semantics). -/
def objSet (o : List (String × JValue)) (k : String) (v : JValue) :
    List (String × JValue) :=
  if o.any (fun p => p.1 == k) then
    o.map (fun p => if p.1 == k then (k, v) else p)
  else
    o ++ [(k, v)]

/-- Object spread `{...a, ...b}`: keys of `a` first (values overridden
by `b` where shared), then the keys only `b` has, in insertion order. -/
def objMerge (a b : List (String × JValue)) : List (String × JValue) :=
  b.foldl (fun acc p => objSet acc p.1 p.2) a

/-- Spreading a value as an object: `{...v}` contributes `v`'s fields
when `v` is an object and nothing when it is `null`/`undefined` (the
only non-object values the configuration code ever spreads). -/
def asObjFields : JValue → List (String × JValue)
  | .obj fs => fs
  | _ => []

/-! ## Agent-name sanitizer (`frontend/src/utils/helpers.js`, `sanitizeAgentName`) -/

/-- The characters regex `\s` matches among those the sanitizer sees
(ASCII whitespace; the JS class also holds `\f`, `\v` and Unicode
spaces, which never occur in agent names). -/
def isJsWhitespace (c : Char) : Bool :=
  c == ' ' || c == '\t' || c == '\n' || c == '\r'

/-- Membership in the character class `[a-z0-9-]` (the characters
`replace(/[^a-z0-9-]/g, '')` keeps). -/
def isAllowedChar (c : Char) : Bool :=
  (97 ≤ c.toNat && c.toNat ≤ 122) || (48 ≤ c.toNat && c.toNat ≤ 57) || c == '-'

/-- `replace(/\s+/g, '-')`: every maximal whitespace run becomes a
single hyphen.  The flag records whether we are inside a run whose
hyphen is already emitted. -/
def collapseWsAux : Bool → List Char → List Char
  | _, [] => []
  | prevWs, c :: rest =>
    if isJsWhitespace c then
      if prevWs then collapseWsAux true rest
      else '-' :: collapseWsAux true rest
    else c :: collapseWsAux false rest

def collapseWs (l : List Char) : List Char := collapseWsAux false l

/-- `replace(/^-+|-+$/g, '')`: strip leading and trailing hyphen runs. -/
def trimHyphens (l : List Char) : List Char :=
  ((l.dropWhile (· == '-')).reverse.dropWhile (· == '-')).reverse

/-- `sanitizeAgentName` from helpers.js: lower-case, collapse
whitespace to hyphens, drop characters outside `[a-z0-9-]`, cut to 20
characters, strip edge hyphens, and fall back to `"agent"` when the
result is empty.  `if (!name) return ''` is the first branch. -/
def sanitizeAgentName (name : String) : String :=
  if name = "" then ""
  else
    let s1 := name.data.map Char.toLower
    let s2 := collapseWs s1
    let s3 := s2.filter isAllowedChar
    let s4 := s3.take 20
    let s5 := trimHyphens s4
    if s5.isEmpty then "agent" else String.mk s5

/-! ## Agent configuration context (`context/AgentContext.jsx`) -/

/-- One entry of the `config_updates` the chat endpoint returns. -/
structure ConfigUpdate where
  field : String
  value : JValue

/-- The argument of `applyConfigUpdates`: `null`/`undefined`, a single
update object, or an array of update objects. -/
inductive ConfigUpdates where
  | none
  | single (u : ConfigUpdate)
  | array (us : List ConfigUpdate)

/-- The three-way branch `applyConfigUpdates` runs for each update
(the source spells the same branch out once in the array loop and once
for the single-object case):
`tools` and every field other than `knowledge_base` are assigned
wholesale; `knowledge_base` is replaced by the spread
`{...updatedConfig.knowledge_base, ...update.value}`. -/
def applyOneUpdate (cfg : List (String × JValue)) (u : ConfigUpdate) :
    List (String × JValue) :=
  if u.field = "tools" then
    objSet cfg "tools" u.value
  else if u.field = "knowledge_base" then
    objSet cfg "knowledge_base"
      (.obj (objMerge (asObjFields (objGetD cfg "knowledge_base"))
        (asObjFields u.value)))
  else
    objSet cfg u.field u.value

/-- `applyConfigUpdates` from AgentContext.jsx: `if (!configUpdates)
return;`, then either a `forEach` over the array (left to right) or the
single-update branch. -/
def applyConfigUpdates (cfg : List (String × JValue)) :
    ConfigUpdates → List (String × JValue)
  | .none => cfg
  | .array us => us.foldl applyOneUpdate cfg
  | .single u => applyOneUpdate cfg u

/-- The `knowledge_base` value of the initial `useState` configuration. -/
def initialKnowledgeBase : List (String × JValue) :=
  [("storage_type", .null), ("index_info", .null), ("project_name", .null),
   ("local_path", .null), ("document_count", .num 0), ("file_names", .arr [])]

/-- The initial `useState` agent configuration. -/
def initialAgentConfig : List (String × JValue) :=
  [("name", .str ""), ("description", .str ""), ("instruction", .str ""),
   ("memory_size", .num 10), ("mode", .str "debug"), ("tools", .arr []),
   ("mcp_servers", .arr []), ("knowledge_base", .obj initialKnowledgeBase)]

/-- The configuration `resetState` installs. -/
def resetAgentConfig : List (String × JValue) :=
  [("name", .str ""), ("description", .str ""), ("instruction", .str ""),
   ("memory_size", .num 10), ("mode", .str "debug"), ("tools", .arr []),
   ("mcp_servers", .arr []),
   ("knowledge_base", .obj
     [("storage_type", .str "llamacloud"), ("index_info", .null),
      ("project_name", .null), ("local_path", .null),
      ("document_count", .num 0), ("file_names", .arr []),
      ("sanitized_name", .null)])]

/-- `updateAgentConfig(field, value)`.  In the
`field === 'name' && value && agentConfig.knowledge_base` branch the
code calls `value.toLowerCase()` inside `sanitizeAgentName`; a truthy
non-string `value` would make that call throw, modelled as `none`. -/
def updateAgentConfig (cfg : List (String × JValue)) (field : String)
    (value : JValue) : Option (List (String × JValue)) :=
  if field = "name" && jsTruthy value && jsTruthy (objGetD cfg "knowledge_base") then
    match value with
    | .str s =>
        some (objSet (objSet cfg field value) "knowledge_base"
          (.obj (objSet (asObjFields (objGetD cfg "knowledge_base"))
            "sanitized_name" (.str (sanitizeAgentName s)))))
    | _ => none
  else
    some (objSet cfg field value)

/-- JS strict comparison `v === 'lit'` of a runtime value with a string
literal. -/
def jsStrictEqStr (v : JValue) (s : String) : Bool :=
  match v with
  | .str t => t == s
  | _ => false

/-- `updateKnowledgeStorage(storageInfo)`: spreads
`{...prev.knowledge_base, storage_type: storageInfo.type, local_path:
storageInfo.type === 'local' ? storageInfo.local_path : null}`. -/
def updateKnowledgeStorage (cfg : List (String × JValue))
    (storageInfo : List (String × JValue)) : List (String × JValue) :=
  objSet cfg "knowledge_base"
    (.obj (objSet
      (objSet (asObjFields (objGetD cfg "knowledge_base"))
        "storage_type" (objGetD storageInfo "type"))
      "local_path"
      (if jsStrictEqStr (objGetD storageInfo "type") "local" then
        objGetD storageInfo "local_path"
      else .null)))

/-- One step of the configuration lifecycle named by the data-model
invariant: a `updateAgentConfig` call, an `applyConfigUpdates` call, a
`resetState`, or a YAML re-parse (`setAgentConfig(parsedConfig)` after
`yaml.load` of an uploaded document). -/
inductive ConfigOp where
  | set (field : String) (value : JValue)
  | apply (updates : ConfigUpdates)
  | reset
  | loadYaml (doc : List (String × JValue))

def runConfigOp (cfg : List (String × JValue)) :
    ConfigOp → Option (List (String × JValue))
  | .set f v => updateAgentConfig cfg f v
  | .apply us => some (applyConfigUpdates cfg us)
  | .reset => some resetAgentConfig
  | .loadYaml doc => some doc

def runConfigOps (cfg : List (String × JValue)) :
    List ConfigOp → Option (List (String × JValue))
  | [] => some cfg
  | op :: ops => (runConfigOp cfg op).bind (fun c => runConfigOps c ops)

/-- Is a runtime value an integer? (`memory_size` is documented as a
bounded integer.) -/
def JValue.isInt : JValue → Bool
  | .num _ => true
  | _ => false

/-! ## Character-level string helpers used by the embedded handlers -/

/-- Does `l` start with `pat`? -/
def charsStartsWith : List Char → List Char → Bool
  | _, [] => true
  | [], _ :: _ => false
  | c :: l, p :: ps => c == p && charsStartsWith l ps

/-- The text after the first occurrence of `pat` in `l` (`none` when
`pat` does not occur).  Models a regex engine's leftmost search. -/
def findAfter (pat : List Char) : List Char → Option (List Char)
  | [] => if charsStartsWith [] pat then some [] else none
  | c :: rest =>
    if charsStartsWith (c :: rest) pat then some (List.drop pat.length (c :: rest))
    else findAfter pat rest

/-- The text before the first occurrence of `pat` in `l` (`none` when
`pat` does not occur). -/
def takeUntil (pat : List Char) : List Char → Option (List Char)
  | [] => if charsStartsWith [] pat then some [] else none
  | c :: rest =>
    if charsStartsWith (c :: rest) pat then some []
    else (takeUntil pat rest).map (c :: ·)

/-- `.test` of a pattern `a.*?b.*?c` with the `s` flag: the fragments
occur in order, each after the end of the previous one. -/
def containsInOrder (s : String) : List String → Bool
  | [] => true
  | pat :: pats =>
    match findAfter pat.data s.data with
    | some rest => containsInOrder (String.mk rest) pats
    | none => false

/-- `message.match(/OPEN([\s\S]*?)CLOSE/)`: the captured group of the
leftmost match — the text between the first open tag and the earliest
close tag after it. -/
def extractBetween (tagO tagC s : String) : Option String :=
  (findAfter tagO.data s.data).bind (fun after =>
    (takeUntil tagC.data after).map String.mk)

/-- JS `String.prototype.trim` for the character set this code sees
(ASCII whitespace). -/
def jsTrim (s : String) : String :=
  String.mk (((s.data.dropWhile isJsWhitespace).reverse.dropWhile
    isJsWhitespace).reverse)

/-! ## A small model of `JSON.parse` for the storage-preference tag

The `[KNOWLEDGE_STORAGE]` tag carries a flat JSON object with string
(or null) values, e.g. `{"type": "local", "local_path": "/kb"}`; the
model parses exactly that shape and answers `none` (= `JSON.parse`
throws, which the caller catches and ignores) on anything else.
Escape sequences, numbers and nesting are outside the tag's shape and
unmodelled. -/

def skipJsonWs : List Char → List Char
  | [] => []
  | c :: rest =>
    if c == ' ' || c == '\t' || c == '\n' || c == '\r' then skipJsonWs rest
    else c :: rest

/-- Read a JSON string body up to the closing quote. -/
def readJsonString : List Char → Option (String × List Char)
  | [] => none
  | c :: rest =>
    if c == '"' then some ("", rest)
    else if c == '\\' then none
    else (readJsonString rest).map (fun r => (String.mk (c :: r.1.data), r.2))

/-- Read a JSON value of the tag's shape: a string or `null`. -/
def readJsonValue (l : List Char) : Option (JValue × List Char) :=
  match l with
  | [] => none
  | c :: rest =>
    if c == '"' then (readJsonString rest).map (fun r => (JValue.str r.1, r.2))
    else if charsStartsWith l ['n', 'u', 'l', 'l'] then some (.null, l.drop 4)
    else none

/-- Read `"key": value` pairs separated by commas up to the closing
brace; `fuel` bounds the recursion by the input length. -/
def readJsonPairs (fuel : Nat) (l : List Char) (acc : List (String × JValue)) :
    Option (List (String × JValue) × List Char) :=
  match fuel with
  | 0 => none
  | fuel + 1 =>
    match skipJsonWs l with
    | c :: rest =>
      if c == '"' then
        match readJsonString rest with
        | some (k, rest2) =>
          match skipJsonWs rest2 with
          | ':' :: rest3 =>
            match readJsonValue (skipJsonWs rest3) with
            | some (v, rest4) =>
              match skipJsonWs rest4 with
              | ',' :: rest5 => readJsonPairs fuel rest5 (acc ++ [(k, v)])
              | c2 :: rest5 =>
                if c2 == '\x7d' then some (acc ++ [(k, v)], rest5) else none
              | [] => none
            | none => none
          | _ => none
        | none => none
      else none
    | [] => none

/-- `JSON.parse` restricted to the tag's object shape. -/
def parseJsonObjFlat (s : String) : Option (List (String × JValue)) :=
  match skipJsonWs s.data with
  | c :: rest =>
    if c == '\x7b' then
      match skipJsonWs rest with
      | c2 :: rest2 =>
        if c2 == '\x7d' then
          if skipJsonWs rest2 = [] then some [] else none
        else
          match readJsonPairs (rest.length + 1) rest [] with
          | some (fields, remainder) =>
            if skipJsonWs remainder = [] then some fields else none
          | none => none
      | [] => none
    else none
  | [] => none

/-! ## Fallback YAML generator (`frontend/src/services/yamlGenerator.js`) -/

/-- The per-tool mapping `tool => ({name: tool.name, endpoint:
tool.endpoint})`.  The map runs only over a non-empty `tools` array,
whose elements are `{name, endpoint}` records. -/
def toolProjection (t : JValue) : JValue :=
  .obj [("name", objGetD (asObjFields t) "name"),
        ("endpoint", objGetD (asObjFields t) "endpoint")]

/-- The value tree of the document `generateYaml` builds and hands to
`yaml.dump`.  For the value domain produced here (string-keyed maps,
strings, integers, `null` and arrays) js-yaml's `load ∘ dump` is the
identity, so the persisted document is modelled by its value tree;
`created_at` (`new Date().toISOString()`) enters as the parameter
`now`.  The guards `agentConfig.tools?.length > 0` and
`agentConfig.mcp_servers?.length > 0` pass only for a non-empty array
(arrays are the only values these fields ever hold besides
`null`/`undefined`); `if (agentConfig.knowledge_base)` is plain
truthiness, which any object — even an empty one — passes. -/
def generateYaml (agentConfig : List (String × JValue)) (now : String) : JValue :=
  let config : List (String × JValue) :=
    [("name", jsOr (objGetD agentConfig "name") (.str "Unnamed Agent")),
     ("description", jsOr (objGetD agentConfig "description") (.str "")),
     ("version", .str "1.0.0"),
     ("created_at", .str now),
     ("instruction", jsOr (objGetD agentConfig "instruction") (.str "")),
     ("config", .obj
       [("memory_size", jsOr (objGetD agentConfig "memory_size") (.num 10)),
        ("claude_model", .str "claude-3-7-sonnet-20250219")])]
  let config := match objGet agentConfig "tools" with
    | some (.arr ts) =>
        if 0 < ts.length then config ++ [("tools", .arr (ts.map toolProjection))]
        else config
    | _ => config
  let config := match objGet agentConfig "mcp_servers" with
    | some (.arr ms) =>
        if 0 < ms.length then config ++ [("mcp_servers", .arr ms)]
        else config
    | _ => config
  let config :=
    if jsTruthy (objGetD agentConfig "knowledge_base") then
      let kb := asObjFields (objGetD agentConfig "knowledge_base")
      config ++ [("knowledge_base", .obj
        [("storage_type", objGetD kb "storage_type"),
         ("index_info", objGetD kb "index_info"),
         ("document_count", jsOr (objGetD kb "document_count") (.num 0)),
         ("project_name", jsOr (objGetD kb "project_name") (.str "__PROJECT_NAME__"))])]
    else config
  .obj config

/-- Flow-style text rendering of a value tree.  It stands for the
js-yaml `dump` call producing the downloadable text; the exact
formatting of that external library is not modelled and no claim
depends on the rendered text. -/
def renderYamlText : JValue → String
  | .null => "null"
  | .bool b => if b then "true" else "false"
  | .num n => toString n
  | .str s => "\"" ++ s ++ "\""
  | .arr xs =>
      "[" ++ String.intercalate ", " (xs.attach.map (fun x => renderYamlText x.1))
          ++ "]"
  | .obj fs =>
      "\x7b" ++ String.intercalate ", "
        (fs.attach.map (fun p => "\"" ++ p.1.1 ++ "\": " ++ renderYamlText p.1.2))
        ++ "\x7d"
termination_by v => sizeOf v
decreasing_by
  all_goals simp_wf
  · have := List.sizeOf_lt_of_mem x.2
    omega
  · have := List.sizeOf_lt_of_mem p.2
    have h2 : sizeOf p.1.2 < sizeOf p.1 := by
      obtain ⟨a, b⟩ := p.1
      simp only [Prod.mk.sizeOf_spec]
      omega
    omega

/-! ## Log stream update (`TestAgent` in the test-agent view, `setupSSE`) -/

/-- The functional state update the SSE `onMessage` handler applies to
the retained log lines: drop incoming lines already retained (exact
string equality), append the rest, keep the latest 300
(`combinedLogs.slice(-300)`). -/
def sseLogUpdate (prevLogs batch : List String) : List String :=
  let newLogs := batch.filter (fun newLog =>
    !(prevLogs.any (fun prevLog => prevLog == newLog)))
  let combinedLogs := prevLogs ++ newLogs
  combinedLogs.drop (combinedLogs.length - 300)

/-! ## Index-creation client (`services/api.js`, `createIndex`) -/

/-- The parsed JSON body of a 2xx index-creation response;
`JValue.null` models a missing as well as a null field. -/
structure IndexResult where
  success : Bool
  index_info : JValue
  error : JValue

/-- The rewrite `createIndex` applies before returning a 2xx result:
`if (result.success && !result.index_info)` it records an error string
and flips `success` to false. -/
def createIndexResult (result : IndexResult) : IndexResult :=
  if result.success && !(jsTruthy result.index_info) then
    { result with
        error := .str "Backend failed to provide valid index information",
        success := false }
  else result

/-! ## MCP-server registry -/

/-- A registry descriptor as the add endpoint receives it. -/
structure McpServerEntry where
  name : String
  sse_url : String
  deriving DecidableEq

/-- Modelled from the spec: the backend MCP-server registry route
handlers are not under `src/` (only the static registry file
`backend/mcp_servers.json` and their frontend callers are).  Spec §6
has `GET /api/mcp-servers/list` serve "a fixed set of external-service
descriptors (read from a static registry file)" — the four descriptors
of `mcp_servers.json` —, and the in-src client `addMcpServer` posts a
`{name, sse_url}` descriptor to `/api/mcp-servers/add`, after which
the add-server modal reloads the page to show the refreshed list; the
add route is therefore modelled as appending the posted descriptor to
the registry. -/
def mcpRegistryInit : List McpServerEntry :=
  [⟨"Flight Booking Service", "http://localhost:5001/api/events"⟩,
   ⟨"Car Rental Service", "http://localhost:5002/api/events"⟩,
   ⟨"Hotel Booking Service", "http://localhost:5004/api/events"⟩,
   ⟨"Weather Forecast Service", "http://localhost:5003/api/events"⟩]

/-- A session's registry operations: list retrievals and adds. -/
inductive RegistryOp where
  | list
  | add (s : McpServerEntry)
  deriving DecidableEq

/-- The registry contents after a session's operations: `list` reads
the registry and leaves it unchanged, `add` appends. -/
def runRegistryOps (reg : List McpServerEntry) : List RegistryOp → List McpServerEntry
  | [] => reg
  | .list :: ops => runRegistryOps reg ops
  | .add s :: ops => runRegistryOps (reg ++ [s]) ops

/-! ## Chat hook (`frontend/src/hooks/useChat.js`, `handleSendMessage`) -/

/-- A chat message as stored in the message list. -/
structure ChatMessage where
  role : String
  content : String
  deriving DecidableEq

/-- A parsed 2xx body of `POST /api/chat`: the assistant text, the
optional `config_updates`, and the `generate_yaml` flag. -/
structure ChatResponse where
  message : String
  config_updates : ConfigUpdates
  generate_yaml : Bool

/-- The state `handleSendMessage` reads and writes: the `useChat` local
state (`inputMessage`, `error`) together with the `useAgent` context
state it touches. -/
structure ChatState where
  messages : List ChatMessage
  inputMessage : String
  isLoading : Bool
  error : Option String
  agentConfig : List (String × JValue)
  showYamlButton : Bool
  yamlContent : String
  showKnowledgeUpload : Bool
  showMcpServerSelection : Bool

/-- `handleSendMessage` as a state transformer.  The two awaited
round-trips enter as parameters: `sendResult` is the outcome of
`sendMessage(updatedMessages, agentConfig)` (`Except.error` carries
`err.message`), `yamlFetch` the outcome of `fetchYaml(agentConfig)`
(consulted only on the `generate_yaml` path).  Both `fetchYaml` and the
local fallback `localGenerateYaml` receive the closure's `agentConfig`,
i.e. the configuration as it was when the handler started — not the one
`applyConfigUpdates` or the storage tag just installed — so the
`generate_yaml` branch uses `st.agentConfig` of the entry state.
The `catch` branch appends the apology message and sets the inline
error; `finally` clears the loading flag on every path. -/
def handleSendMessage (st : ChatState) (sendResult : Except String ChatResponse)
    (yamlFetch : Except String String) (now : String) : ChatState :=
  if jsTrim st.inputMessage == "" || st.isLoading then st
  else
    let cfgAtEntry := st.agentConfig
    let userMessage : ChatMessage := ⟨"user", st.inputMessage⟩
    let st := { st with
      messages := st.messages ++ [userMessage],
      inputMessage := "", isLoading := true, error := none }
    match sendResult with
    | .error e =>
        { st with
            error := some ("Error communicating with Claude: " ++ e),
            messages := st.messages ++
              [⟨"assistant", "Sorry, I encountered an error processing your request: "
                ++ e ++ ". Please try again."⟩],
            isLoading := false }
    | .ok response =>
        let st := { st with
          messages := st.messages ++
            [(⟨"assistant", response.message⟩ : ChatMessage)] }
        let st := { st with
          agentConfig := applyConfigUpdates st.agentConfig response.config_updates }
        let st := if containsInOrder response.message
            ["[PROMPT_KNOWLEDGE_UPLOAD]", "true", "[/PROMPT_KNOWLEDGE_UPLOAD]"] then
          { st with showKnowledgeUpload := true }
        else st
        let st := if containsInOrder response.message
            ["[PROMPT_MCP_SERVER]", "true", "[/PROMPT_MCP_SERVER]"] then
          { st with showMcpServerSelection := true }
        else st
        let st := match extractBetween "[KNOWLEDGE_STORAGE]" "[/KNOWLEDGE_STORAGE]"
            response.message with
          | some inner =>
            match parseJsonObjFlat (jsTrim inner) with
            | some pref =>
                { st with agentConfig := updateKnowledgeStorage st.agentConfig pref }
            | Option.none => st
          | Option.none => st
        if response.generate_yaml then
          let st := { st with showYamlButton := true }
          match yamlFetch with
          | .ok y => { st with yamlContent := y, isLoading := false }
          | .error _ =>
              { st with
                  yamlContent := renderYamlText (generateYaml cfgAtEntry now),
                  isLoading := false }
        else { st with isLoading := false }

/-! ## Lemmas about the object operations -/

theorem objGet_objSet_self (o : List (String × JValue)) (k : String) (v : JValue) :
    objGet (objSet o k v) k = some v := by
  unfold objSet objGet
  by_cases h : o.any (fun p => p.1 == k)
  · simp only [h, if_true]
    rw [List.find?_map]
    have hpred :
        (fun p : String × JValue => p.1 == k) ∘
          (fun p : String × JValue => if p.1 == k then (k, v) else p) =
        (fun p : String × JValue => p.1 == k) := by
      funext p
      by_cases hp : p.1 = k <;> simp [hp]
    rw [hpred]
    rcases List.any_eq_true.mp h with ⟨q, hq, hqk⟩
    have hs : (o.find? (fun p => p.1 == k)).isSome :=
      List.find?_isSome.mpr ⟨q, hq, hqk⟩
    rcases Option.isSome_iff_exists.mp hs with ⟨r, hr⟩
    have hrk : r.1 = k := by simpa using List.find?_some hr
    rw [hr]
    simp [hrk]
  · simp only [h, if_neg, Bool.false_eq_true, not_false_iff]
    rw [List.find?_append]
    have hnone : o.find? (fun p => p.1 == k) = none :=
      List.find?_eq_none.mpr
        (fun x hx hxk => h (List.any_eq_true.mpr ⟨x, hx, hxk⟩))
    simp [hnone, List.find?]

theorem objGet_objSet_ne (o : List (String × JValue)) (k k' : String) (v : JValue)
    (h : k' ≠ k) : objGet (objSet o k v) k' = objGet o k' := by
  unfold objSet objGet
  by_cases ha : o.any (fun p => p.1 == k)
  · simp only [ha, if_true]
    rw [List.find?_map]
    have hpred :
        (fun p : String × JValue => p.1 == k') ∘
          (fun p : String × JValue => if p.1 == k then (k, v) else p) =
        (fun p : String × JValue => p.1 == k') := by
      funext p
      by_cases hp : p.1 = k <;> simp [hp, Ne.symm h]
    rw [hpred]
    cases hfind : o.find? (fun p => p.1 == k') with
    | none => simp
    | some r =>
      have hrk' : r.1 = k' := by simpa using List.find?_some hfind
      simp [hrk', h]
  · simp only [ha, if_neg, Bool.false_eq_true, not_false_iff]
    rw [List.find?_append]
    have hkk : (k == k') = false := beq_eq_false_iff_ne.mpr (Ne.symm h)
    have h1 : ([(k, v)].find? (fun p => p.1 == k')) = none := by
      simp [List.find?, hkk]
    cases hfind : o.find? (fun p => p.1 == k') <;> simp [hfind, h1]

/-- C2: every stream update appends exactly the incoming lines not
already retained (exact string match), keeps the previously retained
lines in order, and truncates to the most recent lines so that the
retained list never exceeds the 300-line window — unconditionally, so
the bound is an invariant of every update.  The result is always a
suffix of "retained lines followed by the deduplicated batch", and is
equal to it whenever that list fits the window. -/
theorem sseLogUpdate_spec (prevLogs batch : List String) :
    (sseLogUpdate prevLogs batch).length ≤ 300 ∧
    sseLogUpdate prevLogs batch <:+
      (prevLogs ++ batch.filter (fun newLog =>
        !(prevLogs.any (fun prevLog => prevLog == newLog)))) ∧
    ((prevLogs ++ batch.filter (fun newLog =>
        !(prevLogs.any (fun prevLog => prevLog == newLog)))).length ≤ 300 →
      sseLogUpdate prevLogs batch =
        prevLogs ++ batch.filter (fun newLog =>
          !(prevLogs.any (fun prevLog => prevLog == newLog)))) := by
  unfold sseLogUpdate
  refine ⟨?_, List.drop_suffix _ _, ?_⟩
  · rw [List.length_drop]
    omega
  · intro h
    have h0 : (prevLogs ++ batch.filter (fun newLog =>
        !(prevLogs.any (fun prevLog => prevLog == newLog)))).length - 300 = 0 := by
      omega
    simp only [h0, List.drop_zero]

/-- Witness for C2 at a concrete state: a batch with one duplicate and
one new line. -/
theorem sseLogUpdate_spec_witness :
    sseLogUpdate ["a", "b"] ["b", "c"] = ["a", "b", "c"] := by
  have h := (sseLogUpdate_spec ["a", "b"] ["b", "c"]).2.2 (by decide)
  exact h.trans (by decide)

/-- C10: a result returned by `createIndex` never reports success
without index information: if the 2xx body has `success` true and a
missing/empty `index_info`, the client rewrites it to a failure with an
error message; a body that is already consistent is returned as is. -/
theorem createIndexResult_spec (r : IndexResult) :
    ((createIndexResult r).success = true →
      jsTruthy (createIndexResult r).index_info = true) ∧
    (r.success = true → jsTruthy r.index_info = false →
      (createIndexResult r).success = false ∧
      (createIndexResult r).error =
        .str "Backend failed to provide valid index information") ∧
    (jsTruthy r.index_info = true → createIndexResult r = r) ∧
    (r.success = false → createIndexResult r = r) := by
  unfold createIndexResult
  refine ⟨?_, ?_, ?_, ?_⟩
  · intro hs
    by_cases h : (r.success && !jsTruthy r.index_info) = true
    · rw [if_pos h] at hs
      simp at hs
    · rw [if_neg h] at hs ⊢
      rw [hs] at h
      simpa using h
  · intro hs hi
    rw [if_pos (by rw [hs, hi]; rfl)]
    exact ⟨rfl, rfl⟩
  · intro hi
    rw [if_neg (by rw [hi]; simp)]
  · intro hs
    rw [if_neg (by rw [hs]; simp)]

/-- Witness for C10: a success body without `index_info` comes back as
a failure carrying the error message. -/
theorem createIndexResult_spec_witness :
    (createIndexResult ⟨true, JValue.null, JValue.null⟩).success = false ∧
    (createIndexResult ⟨true, JValue.null, JValue.null⟩).error =
      .str "Backend failed to provide valid index information" :=
  (createIndexResult_spec ⟨true, JValue.null, JValue.null⟩).2.1 rfl rfl

/-- C7 counterexample: the system exposes an add-MCP-server operation,
and after it a retrieval of the server list no longer returns the
registry's original descriptors, refuting "no operation exposed by the
system changes which descriptors are in the set". -/
theorem mcpRegistry_add_changes_set :
    runRegistryOps mcpRegistryInit
        [RegistryOp.add ⟨"Local Notes Service", "http://localhost:6000/api/events"⟩]
      ≠ runRegistryOps mcpRegistryInit [] := by
  decide

/-- C7 (amended): the registry serves the descriptors read from the
static registry file, and a session that performs no add operation sees
the same descriptor set at every retrieval. -/
theorem mcpRegistry_fixed_without_add (reg : List McpServerEntry)
    (ops : List RegistryOp) (h : ∀ op ∈ ops, op = RegistryOp.list) :
    runRegistryOps reg ops = reg := by
  induction ops with
  | nil => rfl
  | cons op rest ih =>
    have hop := h op (List.mem_cons_self op rest)
    subst hop
    exact ih (fun o ho => h o (List.mem_cons_of_mem _ ho))

/-- Witness for C7's amended theorem: two list retrievals with no add
leave the registry untouched. -/
theorem mcpRegistry_fixed_without_add_witness :
    runRegistryOps mcpRegistryInit [RegistryOp.list, RegistryOp.list] =
      mcpRegistryInit :=
  mcpRegistry_fixed_without_add mcpRegistryInit _ (by decide)

/-- C6 counterexample: a single `applyConfigUpdates` call reached from
the reset state stores the string `"abc"` in `memory_size`, so the
reachable configurations do not keep `memory_size` an integer (within
any bounds). -/
theorem memorySize_noninteger_reachable :
    (runConfigOps resetAgentConfig
        [ConfigOp.apply (ConfigUpdates.single ⟨"memory_size", JValue.str "abc"⟩)]).map
      (fun cfg => (objGet cfg "memory_size").map JValue.isInt) =
    some (some false) := by
  rfl

/-- C6 (amended): the initial state and `resetState` set `memory_size`
to the integer 10, but the update operations place no bound on it — an
update may store any value whatsoever in `memory_size`. -/
theorem memorySize_unconstrained (v : JValue) :
    objGet (applyConfigUpdates resetAgentConfig
      (ConfigUpdates.single ⟨"memory_size", v⟩)) "memory_size" = some v ∧
    objGet resetAgentConfig "memory_size" = some (JValue.num 10) ∧
    objGet initialAgentConfig "memory_size" = some (JValue.num 10) := by
  refine ⟨?_, rfl, rfl⟩
  show objGet (applyOneUpdate resetAgentConfig ⟨"memory_size", v⟩) "memory_size"
    = some v
  unfold applyOneUpdate
  dsimp only
  rw [if_neg (by decide), if_neg (by decide)]
  exact objGet_objSet_self _ _ _

theorem objGet_objMerge_not_mem (a b : List (String × JValue)) (j : String)
    (h : ∀ p ∈ b, p.1 ≠ j) : objGet (objMerge a b) j = objGet a j := by
  induction b generalizing a with
  | nil => rfl
  | cons p rest ih =>
    show objGet (objMerge (objSet a p.1 p.2) rest) j = objGet a j
    rw [ih (objSet a p.1 p.2) (fun q hq => h q (List.mem_cons_of_mem _ hq))]
    exact objGet_objSet_ne _ _ _ _
      (fun hj => h p (List.mem_cons_self p rest) hj.symm)

theorem objGet_objMerge_mem (a b : List (String × JValue)) (j : String)
    (v : JValue) (hmem : (j, v) ∈ b) (hnd : (b.map Prod.fst).Nodup) :
    objGet (objMerge a b) j = some v := by
  induction b generalizing a with
  | nil => cases hmem
  | cons p rest ih =>
    rcases List.mem_cons.mp hmem with hp | hmem'
    · subst hp
      have hni := (List.nodup_cons.mp hnd).1
      have hrest : ∀ q ∈ rest, q.1 ≠ j := by
        intro q hq hqj
        have hm : q.1 ∈ rest.map Prod.fst := List.mem_map_of_mem Prod.fst hq
        rw [hqj] at hm
        exact hni hm
      show objGet (objMerge (objSet a j v) rest) j = some v
      rw [objGet_objMerge_not_mem _ _ _ hrest]
      exact objGet_objSet_self _ _ _
    · show objGet (objMerge (objSet a p.1 p.2) rest) j = some v
      exact ih (objSet a p.1 p.2) hmem' (List.nodup_cons.mp hnd).2

/-- C1: `applyConfigUpdates` leaves the configuration unchanged on a
null argument, treats a single update like a one-element array, applies
an array of updates left to right, replaces `tools` and every other
non-`knowledge_base` field wholesale with the update's value, leaves
every field no update names unchanged, and shallow-merges a
`knowledge_base` update into the existing object: keys named by the
update's value take its values, keys it does not name keep theirs. -/
theorem applyConfigUpdates_spec (cfg : List (String × JValue)) (u : ConfigUpdate)
    (us : List ConfigUpdate) (k j : String) (fs : List (String × JValue))
    (v : JValue) :
    applyConfigUpdates cfg ConfigUpdates.none = cfg ∧
    applyConfigUpdates cfg (ConfigUpdates.single u) =
      applyConfigUpdates cfg (ConfigUpdates.array [u]) ∧
    applyConfigUpdates cfg (ConfigUpdates.array (u :: us)) =
      applyConfigUpdates (applyOneUpdate cfg u) (ConfigUpdates.array us) ∧
    (u.field ≠ "knowledge_base" →
      objGet (applyOneUpdate cfg u) u.field = some u.value) ∧
    (k ≠ u.field → objGet (applyOneUpdate cfg u) k = objGet cfg k) ∧
    (u.field = "knowledge_base" → u.value = JValue.obj fs →
      objGet (applyOneUpdate cfg u) "knowledge_base" =
        some (JValue.obj
          (objMerge (asObjFields (objGetD cfg "knowledge_base")) fs)) ∧
      ((∀ p ∈ fs, p.1 ≠ j) →
        objGet (objMerge (asObjFields (objGetD cfg "knowledge_base")) fs) j =
          objGet (asObjFields (objGetD cfg "knowledge_base")) j) ∧
      ((j, v) ∈ fs → (fs.map Prod.fst).Nodup →
        objGet (objMerge (asObjFields (objGetD cfg "knowledge_base")) fs) j =
          some v)) := by
  refine ⟨rfl, rfl, rfl, ?_, ?_, ?_⟩
  · intro hkb
    unfold applyOneUpdate
    by_cases ht : u.field = "tools"
    · rw [if_pos ht, ht]
      exact objGet_objSet_self _ _ _
    · rw [if_neg ht, if_neg hkb]
      exact objGet_objSet_self _ _ _
  · intro hk
    unfold applyOneUpdate
    by_cases ht : u.field = "tools"
    · rw [if_pos ht]
      exact objGet_objSet_ne _ _ _ _ (ht ▸ hk)
    · by_cases hkb : u.field = "knowledge_base"
      · rw [if_neg ht, if_pos hkb]
        exact objGet_objSet_ne _ _ _ _ (hkb ▸ hk)
      · rw [if_neg ht, if_neg hkb]
        exact objGet_objSet_ne _ _ _ _ hk
  · intro hkb hval
    have ht : ¬ u.field = "tools" := by rw [hkb]; decide
    refine ⟨?_, ?_, ?_⟩
    · unfold applyOneUpdate
      rw [if_neg ht, if_pos hkb, hval]
      exact objGet_objSet_self _ _ _
    · exact fun h => objGet_objMerge_not_mem _ _ _ h
    · exact fun h1 h2 => objGet_objMerge_mem _ _ _ _ h1 h2

/-- Witness for C1 at the reset configuration: an update to
`description` leaves `name` alone, and a `knowledge_base` update that
names only `document_count` keeps `storage_type` while storing the new
count. -/
theorem applyConfigUpdates_spec_witness :
    objGet (applyOneUpdate resetAgentConfig
        ⟨"description", JValue.str "d"⟩) "name" =
      objGet resetAgentConfig "name" ∧
    objGet (objMerge
        (asObjFields (objGetD resetAgentConfig "knowledge_base"))
        [("document_count", JValue.num 5)]) "storage_type" =
      objGet (asObjFields (objGetD resetAgentConfig "knowledge_base"))
        "storage_type" ∧
    objGet (objMerge
        (asObjFields (objGetD resetAgentConfig "knowledge_base"))
        [("document_count", JValue.num 5)]) "document_count" =
      some (JValue.num 5) := by
  refine ⟨?_, ?_, ?_⟩
  · exact (applyConfigUpdates_spec resetAgentConfig ⟨"description", JValue.str "d"⟩
      [] "name" "storage_type" [] JValue.null).2.2.2.2.1 (by decide)
  · exact (((applyConfigUpdates_spec resetAgentConfig
      ⟨"knowledge_base", JValue.obj [("document_count", JValue.num 5)]⟩
      [] "name" "storage_type" [("document_count", JValue.num 5)]
      JValue.null).2.2.2.2.2 rfl rfl).2.1 (by decide))
  · exact (((applyConfigUpdates_spec resetAgentConfig
      ⟨"knowledge_base", JValue.obj [("document_count", JValue.num 5)]⟩
      [] "name" "document_count" [("document_count", JValue.num 5)]
      (JValue.num 5)).2.2.2.2.2 rfl rfl).2.2
      (List.mem_cons_self _ _) (by decide))

/-- C5: when the input is empty or whitespace-only, or a request is
already in flight, `handleSendMessage` returns with the state — message
list, configuration, and all — unchanged; the theorem holds for every
value of the round-trip parameters, which is how the embedding
expresses that no request is sent. -/
theorem handleSendMessage_guard (st : ChatState) (r : Except String ChatResponse)
    (y : Except String String) (now : String)
    (h : (jsTrim st.inputMessage == "") = true ∨ st.isLoading = true) :
    handleSendMessage st r y now = st := by
  unfold handleSendMessage
  rcases h with h | h <;> rw [if_pos (by rw [h]; simp)]

/-- Witness for C5: a whitespace-only input leaves a concrete state
untouched. -/
theorem handleSendMessage_guard_witness :
    handleSendMessage
      ⟨[⟨"assistant", "hello"⟩], " \t ", false, Option.none,
        initialAgentConfig, false, "", false, false⟩
      (Except.ok ⟨"m", ConfigUpdates.none, false⟩) (Except.ok "") "t" =
    ⟨[⟨"assistant", "hello"⟩], " \t ", false, Option.none,
      initialAgentConfig, false, "", false, false⟩ :=
  handleSendMessage_guard _ _ _ _ (Or.inl (by decide))

/-- C4: when the chat round-trip fails, `handleSendMessage` catches the
error (the function is total — nothing is rethrown), appends the user
message followed by exactly one assistant message carrying the error
text, sets the inline error string, clears the loading flag, and leaves
the agent configuration — and every other piece of state except the
cleared input field — unchanged. -/
theorem handleSendMessage_error (st : ChatState) (e : String)
    (y : Except String String) (now : String)
    (hguard : (jsTrim st.inputMessage == "" || st.isLoading) = false) :
    (handleSendMessage st (Except.error e) y now).messages =
      st.messages ++
        [⟨"user", st.inputMessage⟩,
         ⟨"assistant", "Sorry, I encountered an error processing your request: "
           ++ e ++ ". Please try again."⟩] ∧
    (handleSendMessage st (Except.error e) y now).error =
      some ("Error communicating with Claude: " ++ e) ∧
    (handleSendMessage st (Except.error e) y now).isLoading = false ∧
    (handleSendMessage st (Except.error e) y now).agentConfig = st.agentConfig ∧
    (handleSendMessage st (Except.error e) y now).inputMessage = "" ∧
    (handleSendMessage st (Except.error e) y now).showYamlButton =
      st.showYamlButton ∧
    (handleSendMessage st (Except.error e) y now).yamlContent = st.yamlContent ∧
    (handleSendMessage st (Except.error e) y now).showKnowledgeUpload =
      st.showKnowledgeUpload ∧
    (handleSendMessage st (Except.error e) y now).showMcpServerSelection =
      st.showMcpServerSelection := by
  unfold handleSendMessage
  rw [if_neg (by rw [hguard]; exact Bool.false_ne_true)]
  exact ⟨by simp, rfl, rfl, rfl, rfl, rfl, rfl, rfl, rfl⟩

/-- Witness for C4 at a concrete state and error. -/
theorem handleSendMessage_error_witness :
    (handleSendMessage
        ⟨[], "hi", false, Option.none, initialAgentConfig, false, "", false, false⟩
        (Except.error "boom") (Except.ok "") "t").messages =
      [⟨"user", "hi"⟩,
       ⟨"assistant", "Sorry, I encountered an error processing your request: "
         ++ "boom" ++ ". Please try again."⟩] ∧
    (handleSendMessage
        ⟨[], "hi", false, Option.none, initialAgentConfig, false, "", false, false⟩
        (Except.error "boom") (Except.ok "") "t").agentConfig =
      initialAgentConfig :=
  ⟨(handleSendMessage_error
      ⟨[], "hi", false, Option.none, initialAgentConfig, false, "", false, false⟩
      "boom" (Except.ok "") "t" (by decide)).1,
   (handleSendMessage_error
      ⟨[], "hi", false, Option.none, initialAgentConfig, false, "", false, false⟩
      "boom" (Except.ok "") "t" (by decide)).2.2.2.1⟩

theorem jsOr_falsy (v d : JValue) (h : jsTruthy v = false) : jsOr v d = d := by
  unfold jsOr
  rw [h]
  rfl

theorem jsOr_truthy (v d : JValue) (h : jsTruthy v = true) : jsOr v d = v := by
  unfold jsOr
  rw [h]
  rfl

theorem generateYaml_name (cfg : List (String × JValue)) (now : String) :
    objGet (asObjFields (generateYaml cfg now)) "name" =
      some (jsOr (objGetD cfg "name") (JValue.str "Unnamed Agent")) := by
  unfold generateYaml
  repeat' split
  all_goals rfl

theorem generateYaml_description (cfg : List (String × JValue)) (now : String) :
    objGet (asObjFields (generateYaml cfg now)) "description" =
      some (jsOr (objGetD cfg "description") (JValue.str "")) := by
  unfold generateYaml
  repeat' split
  all_goals rfl

theorem generateYaml_instruction (cfg : List (String × JValue)) (now : String) :
    objGet (asObjFields (generateYaml cfg now)) "instruction" =
      some (jsOr (objGetD cfg "instruction") (JValue.str "")) := by
  unfold generateYaml
  repeat' split
  all_goals rfl

theorem generateYaml_config (cfg : List (String × JValue)) (now : String) :
    objGet (asObjFields (generateYaml cfg now)) "config" =
      some (JValue.obj
        [("memory_size", jsOr (objGetD cfg "memory_size") (JValue.num 10)),
         ("claude_model", JValue.str "claude-3-7-sonnet-20250219")]) := by
  unfold generateYaml
  repeat' split
  all_goals rfl

theorem generateYaml_tools_some (cfg : List (String × JValue)) (now : String)
    (ts : List JValue) (h : objGet cfg "tools" = some (JValue.arr ts))
    (hne : ts ≠ []) :
    objGet (asObjFields (generateYaml cfg now)) "tools" =
      some (JValue.arr (ts.map toolProjection)) := by
  unfold generateYaml
  rw [h]
  dsimp only
  rw [if_pos (List.length_pos.mpr hne)]
  repeat' split
  all_goals rfl

theorem generateYaml_tools_none (cfg : List (String × JValue)) (now : String)
    (h : objGet cfg "tools" = none ∨ objGet cfg "tools" = some JValue.null ∨
      objGet cfg "tools" = some (JValue.arr [])) :
    objGet (asObjFields (generateYaml cfg now)) "tools" = none := by
  unfold generateYaml
  rcases h with h | h | h
  all_goals rw [h]
  all_goals dsimp only
  all_goals repeat' split
  all_goals first | rfl | simp_all

theorem generateYaml_mcp_some (cfg : List (String × JValue)) (now : String)
    (ms : List JValue) (h : objGet cfg "mcp_servers" = some (JValue.arr ms))
    (hne : ms ≠ []) :
    objGet (asObjFields (generateYaml cfg now)) "mcp_servers" =
      some (JValue.arr ms) := by
  unfold generateYaml
  rw [h]
  dsimp only
  rw [if_pos (List.length_pos.mpr hne)]
  repeat' split
  all_goals rfl

theorem generateYaml_mcp_none (cfg : List (String × JValue)) (now : String)
    (h : objGet cfg "mcp_servers" = none ∨
      objGet cfg "mcp_servers" = some JValue.null ∨
      objGet cfg "mcp_servers" = some (JValue.arr [])) :
    objGet (asObjFields (generateYaml cfg now)) "mcp_servers" = none := by
  unfold generateYaml
  rcases h with h | h | h
  all_goals rw [h]
  all_goals dsimp only
  all_goals repeat' split
  all_goals first | rfl | simp_all

theorem generateYaml_kb_truthy (cfg : List (String × JValue)) (now : String)
    (h : jsTruthy (objGetD cfg "knowledge_base") = true) :
    objGet (asObjFields (generateYaml cfg now)) "knowledge_base" =
      some (JValue.obj
        [("storage_type",
          objGetD (asObjFields (objGetD cfg "knowledge_base")) "storage_type"),
         ("index_info",
          objGetD (asObjFields (objGetD cfg "knowledge_base")) "index_info"),
         ("document_count",
          jsOr (objGetD (asObjFields (objGetD cfg "knowledge_base"))
            "document_count") (JValue.num 0)),
         ("project_name",
          jsOr (objGetD (asObjFields (objGetD cfg "knowledge_base"))
            "project_name") (JValue.str "__PROJECT_NAME__"))]) := by
  unfold generateYaml
  rw [h]
  repeat' split
  all_goals first | rfl | exact absurd rfl (by assumption)

theorem generateYaml_kb_falsy (cfg : List (String × JValue)) (now : String)
    (h : jsTruthy (objGetD cfg "knowledge_base") = false) :
    objGet (asObjFields (generateYaml cfg now)) "knowledge_base" = none := by
  unfold generateYaml
  repeat' split
  all_goals first | rfl | simp_all

/-- C3 counterexample: a configuration whose `knowledge_base` is a
present-but-empty object still gets a `knowledge_base` section —
`if (agentConfig.knowledge_base)` is plain truthiness and `{}` is
truthy — refuting "emits the … knowledge_base section only when the
corresponding field is present and non-empty". -/
theorem generateYaml_emptyKb_emits_section :
    objGet (asObjFields (generateYaml [("knowledge_base", JValue.obj [])] "t"))
      "knowledge_base" =
    some (JValue.obj
      [("storage_type", JValue.null), ("index_info", JValue.null),
       ("document_count", JValue.num 0),
       ("project_name", JValue.str "__PROJECT_NAME__")]) := rfl

/-- C3 (amended): the fallback generator substitutes the defaults —
name `'Unnamed Agent'`, description `''`, instruction `''`,
memory_size 10 — whenever the corresponding field is absent (null,
undefined, or empty/falsy); it emits the `tools` and `mcp_servers`
sections only when the field holds a non-empty array, and the
`knowledge_base` section whenever the field is truthy — including a
present-but-empty object.  A configuration with every optional field
absent therefore still yields a well-formed document. -/
theorem generateYaml_defaults (cfg : List (String × JValue)) (now : String) :
    (jsTruthy (objGetD cfg "name") = false →
      objGet (asObjFields (generateYaml cfg now)) "name" =
        some (JValue.str "Unnamed Agent")) ∧
    (jsTruthy (objGetD cfg "description") = false →
      objGet (asObjFields (generateYaml cfg now)) "description" =
        some (JValue.str "")) ∧
    (jsTruthy (objGetD cfg "instruction") = false →
      objGet (asObjFields (generateYaml cfg now)) "instruction" =
        some (JValue.str "")) ∧
    (jsTruthy (objGetD cfg "memory_size") = false →
      objGet (asObjFields (generateYaml cfg now)) "config" =
        some (JValue.obj
          [("memory_size", JValue.num 10),
           ("claude_model", JValue.str "claude-3-7-sonnet-20250219")])) ∧
    (objGet cfg "tools" = none ∨ objGet cfg "tools" = some JValue.null ∨
        objGet cfg "tools" = some (JValue.arr []) →
      objGet (asObjFields (generateYaml cfg now)) "tools" = none) ∧
    (∀ ts, objGet cfg "tools" = some (JValue.arr ts) → ts ≠ [] →
      objGet (asObjFields (generateYaml cfg now)) "tools" =
        some (JValue.arr (ts.map toolProjection))) ∧
    (objGet cfg "mcp_servers" = none ∨
        objGet cfg "mcp_servers" = some JValue.null ∨
        objGet cfg "mcp_servers" = some (JValue.arr []) →
      objGet (asObjFields (generateYaml cfg now)) "mcp_servers" = none) ∧
    (∀ ms, objGet cfg "mcp_servers" = some (JValue.arr ms) → ms ≠ [] →
      objGet (asObjFields (generateYaml cfg now)) "mcp_servers" =
        some (JValue.arr ms)) ∧
    (jsTruthy (objGetD cfg "knowledge_base") = false →
      objGet (asObjFields (generateYaml cfg now)) "knowledge_base" = none) ∧
    (jsTruthy (objGetD cfg "knowledge_base") = true →
      (objGet (asObjFields (generateYaml cfg now)) "knowledge_base").isSome =
        true) := by
  refine ⟨?_, ?_, ?_, ?_, generateYaml_tools_none cfg now,
    ?_, generateYaml_mcp_none cfg now, ?_, generateYaml_kb_falsy cfg now, ?_⟩
  · intro h
    rw [generateYaml_name cfg now, jsOr_falsy _ _ h]
  · intro h
    rw [generateYaml_description cfg now, jsOr_falsy _ _ h]
  · intro h
    rw [generateYaml_instruction cfg now, jsOr_falsy _ _ h]
  · intro h
    rw [generateYaml_config cfg now, jsOr_falsy _ _ h]
  · exact fun ts h hne => generateYaml_tools_some cfg now ts h hne
  · exact fun ms h hne => generateYaml_mcp_some cfg now ms h hne
  · intro h
    rw [generateYaml_kb_truthy cfg now h]
    rfl

/-- Witness for C3: the empty configuration — every field absent —
yields the defaults and no optional section. -/
theorem generateYaml_defaults_witness :
    objGet (asObjFields (generateYaml [] "t")) "name" =
      some (JValue.str "Unnamed Agent") ∧
    objGet (asObjFields (generateYaml [] "t")) "description" =
      some (JValue.str "") ∧
    objGet (asObjFields (generateYaml [] "t")) "instruction" =
      some (JValue.str "") ∧
    objGet (asObjFields (generateYaml [] "t")) "config" =
      some (JValue.obj
        [("memory_size", JValue.num 10),
         ("claude_model", JValue.str "claude-3-7-sonnet-20250219")]) ∧
    objGet (asObjFields (generateYaml [] "t")) "tools" = none ∧
    objGet (asObjFields (generateYaml [] "t")) "mcp_servers" = none ∧
    objGet (asObjFields (generateYaml [] "t")) "knowledge_base" = none :=
  ⟨(generateYaml_defaults [] "t").1 rfl,
   (generateYaml_defaults [] "t").2.1 rfl,
   (generateYaml_defaults [] "t").2.2.1 rfl,
   (generateYaml_defaults [] "t").2.2.2.1 rfl,
   (generateYaml_defaults [] "t").2.2.2.2.1 (Or.inl rfl),
   (generateYaml_defaults [] "t").2.2.2.2.2.2.1 (Or.inl rfl),
   (generateYaml_defaults [] "t").2.2.2.2.2.2.2.2.1 rfl⟩

/-- C8 counterexample: serialization followed by parsing is not a
round-trip on the knowledge-base descriptor — `generateYaml` emits only
`storage_type`, `index_info`, `document_count` and `project_name`, so a
configuration whose knowledge base lists a file name comes back without
its `file_names` (the document's knowledge_base section has no such
key, while the input descriptor holds `["a.txt"]`). -/
theorem generateYaml_roundTrip_drops_fileNames :
    objGet (asObjFields (objGetD
        (asObjFields (generateYaml
          [("name", JValue.str "a"),
           ("knowledge_base", JValue.obj
             [("storage_type", JValue.str "local"),
              ("index_info", JValue.str "idx"),
              ("document_count", JValue.num 1),
              ("project_name", JValue.str "p"),
              ("file_names", JValue.arr [JValue.str "a.txt"])])] "t"))
        "knowledge_base")) "file_names" ≠
    objGet (asObjFields (objGetD
        [("name", JValue.str "a"),
         ("knowledge_base", JValue.obj
           [("storage_type", JValue.str "local"),
            ("index_info", JValue.str "idx"),
            ("document_count", JValue.num 1),
            ("project_name", JValue.str "p"),
            ("file_names", JValue.arr [JValue.str "a.txt"])])]
        "knowledge_base")) "file_names" := by
  intro h
  have h1 : objGet (asObjFields (objGetD
      (asObjFields (generateYaml
        [("name", JValue.str "a"),
         ("knowledge_base", JValue.obj
           [("storage_type", JValue.str "local"),
            ("index_info", JValue.str "idx"),
            ("document_count", JValue.num 1),
            ("project_name", JValue.str "p"),
            ("file_names", JValue.arr [JValue.str "a.txt"])])] "t"))
      "knowledge_base")) "file_names" = none := rfl
  have h2 : objGet (asObjFields (objGetD
      [("name", JValue.str "a"),
       ("knowledge_base", JValue.obj
         [("storage_type", JValue.str "local"),
          ("index_info", JValue.str "idx"),
          ("document_count", JValue.num 1),
          ("project_name", JValue.str "p"),
          ("file_names", JValue.arr [JValue.str "a.txt"])])]
      "knowledge_base")) "file_names" =
    some (JValue.arr [JValue.str "a.txt"]) := rfl
  rw [h1, h2] at h
  exact Option.noConfusion h

/-- C8 (amended): reading the document `generateYaml` produces recovers
the configuration's fields with the documented defaults substituted —
name, description, instruction, memory_size, the tools list with name
and endpoint per record, the mcp_servers list, and the knowledge-base
descriptor's storage_type, index_info, document_count and project_name
— but the descriptor's `file_names` (as well as `local_path` and
`sanitized_name`) are dropped and cannot be recovered. -/
theorem generateYaml_roundTrip (cfg : List (String × JValue)) (now : String)
    (ts ms : List JValue) (t a b c d : JValue) :
    objGet (asObjFields (generateYaml cfg now)) "name" =
      some (jsOr (objGetD cfg "name") (JValue.str "Unnamed Agent")) ∧
    objGet (asObjFields (generateYaml cfg now)) "description" =
      some (jsOr (objGetD cfg "description") (JValue.str "")) ∧
    objGet (asObjFields (generateYaml cfg now)) "instruction" =
      some (jsOr (objGetD cfg "instruction") (JValue.str "")) ∧
    objGet (asObjFields (generateYaml cfg now)) "config" =
      some (JValue.obj
        [("memory_size", jsOr (objGetD cfg "memory_size") (JValue.num 10)),
         ("claude_model", JValue.str "claude-3-7-sonnet-20250219")]) ∧
    (objGet cfg "tools" = some (JValue.arr ts) → ts ≠ [] →
      objGet (asObjFields (generateYaml cfg now)) "tools" =
        some (JValue.arr (ts.map toolProjection))) ∧
    (objGet (asObjFields (toolProjection t)) "name" =
        some (objGetD (asObjFields t) "name") ∧
      objGet (asObjFields (toolProjection t)) "endpoint" =
        some (objGetD (asObjFields t) "endpoint")) ∧
    (objGet cfg "mcp_servers" = some (JValue.arr ms) → ms ≠ [] →
      objGet (asObjFields (generateYaml cfg now)) "mcp_servers" =
        some (JValue.arr ms)) ∧
    (jsTruthy (objGetD cfg "knowledge_base") = true →
      objGet (asObjFields (generateYaml cfg now)) "knowledge_base" =
        some (JValue.obj
          [("storage_type",
            objGetD (asObjFields (objGetD cfg "knowledge_base")) "storage_type"),
           ("index_info",
            objGetD (asObjFields (objGetD cfg "knowledge_base")) "index_info"),
           ("document_count",
            jsOr (objGetD (asObjFields (objGetD cfg "knowledge_base"))
              "document_count") (JValue.num 0)),
           ("project_name",
            jsOr (objGetD (asObjFields (objGetD cfg "knowledge_base"))
              "project_name") (JValue.str "__PROJECT_NAME__"))])) ∧
    (objGet [("storage_type", a), ("index_info", b), ("document_count", c),
        ("project_name", d)] "storage_type" = some a ∧
      objGet [("storage_type", a), ("index_info", b), ("document_count", c),
        ("project_name", d)] "index_info" = some b ∧
      objGet [("storage_type", a), ("index_info", b), ("document_count", c),
        ("project_name", d)] "document_count" = some c ∧
      objGet [("storage_type", a), ("index_info", b), ("document_count", c),
        ("project_name", d)] "project_name" = some d ∧
      objGet [("storage_type", a), ("index_info", b), ("document_count", c),
        ("project_name", d)] "file_names" = none ∧
      objGet [("storage_type", a), ("index_info", b), ("document_count", c),
        ("project_name", d)] "local_path" = none ∧
      objGet [("storage_type", a), ("index_info", b), ("document_count", c),
        ("project_name", d)] "sanitized_name" = none) :=
  ⟨generateYaml_name cfg now, generateYaml_description cfg now,
   generateYaml_instruction cfg now, generateYaml_config cfg now,
   fun h hne => generateYaml_tools_some cfg now ts h hne,
   ⟨rfl, rfl⟩,
   fun h hne => generateYaml_mcp_some cfg now ms h hne,
   fun h => generateYaml_kb_truthy cfg now h,
   rfl, rfl, rfl, rfl, rfl, rfl, rfl⟩

/-- Witness for C8 at a configuration with one tool, one MCP server and
a knowledge base. -/
theorem generateYaml_roundTrip_witness :
    objGet (asObjFields (generateYaml
        [("name", JValue.str "My Agent"),
         ("tools", JValue.arr
           [JValue.obj [("name", JValue.str "t1"),
                        ("endpoint", JValue.str "e1")]]),
         ("mcp_servers", JValue.arr [JValue.str "weather"]),
         ("knowledge_base", JValue.obj
           [("storage_type", JValue.str "local")])] "t")) "tools" =
      some (JValue.arr
        [JValue.obj [("name", JValue.str "t1"),
                     ("endpoint", JValue.str "e1")]]) ∧
    objGet (asObjFields (generateYaml
        [("name", JValue.str "My Agent"),
         ("tools", JValue.arr
           [JValue.obj [("name", JValue.str "t1"),
                        ("endpoint", JValue.str "e1")]]),
         ("mcp_servers", JValue.arr [JValue.str "weather"]),
         ("knowledge_base", JValue.obj
           [("storage_type", JValue.str "local")])] "t")) "mcp_servers" =
      some (JValue.arr [JValue.str "weather"]) := by
  constructor
  · have h := (generateYaml_roundTrip
      [("name", JValue.str "My Agent"),
       ("tools", JValue.arr
         [JValue.obj [("name", JValue.str "t1"),
                      ("endpoint", JValue.str "e1")]]),
       ("mcp_servers", JValue.arr [JValue.str "weather"]),
       ("knowledge_base", JValue.obj
         [("storage_type", JValue.str "local")])] "t"
      [JValue.obj [("name", JValue.str "t1"), ("endpoint", JValue.str "e1")]]
      [JValue.str "weather"] JValue.null JValue.null JValue.null JValue.null
      JValue.null).2.2.2.2.1 rfl (List.cons_ne_nil _ _)
    rw [h]
    rfl
  · exact (generateYaml_roundTrip
      [("name", JValue.str "My Agent"),
       ("tools", JValue.arr
         [JValue.obj [("name", JValue.str "t1"),
                      ("endpoint", JValue.str "e1")]]),
       ("mcp_servers", JValue.arr [JValue.str "weather"]),
       ("knowledge_base", JValue.obj
         [("storage_type", JValue.str "local")])] "t"
      [JValue.obj [("name", JValue.str "t1"), ("endpoint", JValue.str "e1")]]
      [JValue.str "weather"] JValue.null JValue.null JValue.null JValue.null
      JValue.null).2.2.2.2.2.2.1 rfl (List.cons_ne_nil _ _)

theorem allowedChar_toNat (c : Char) (h : isAllowedChar c = true) :
    (97 ≤ c.toNat ∧ c.toNat ≤ 122) ∨ (48 ≤ c.toNat ∧ c.toNat ≤ 57) ∨
      c.toNat = 45 := by
  unfold isAllowedChar at h
  simp only [Bool.or_eq_true, Bool.and_eq_true, decide_eq_true_eq,
    beq_iff_eq] at h
  rcases h with (h | h) | h
  · exact Or.inl h
  · exact Or.inr (Or.inl h)
  · subst h
    exact Or.inr (Or.inr (by decide))

theorem allowed_not_ws (c : Char) (h : isAllowedChar c = true) :
    isJsWhitespace c = false := by
  have hn := allowedChar_toNat c h
  unfold isJsWhitespace
  simp only [Bool.or_eq_false_iff, beq_eq_false_iff_ne]
  refine ⟨⟨⟨?_, ?_⟩, ?_⟩, ?_⟩ <;> (intro hc; subst hc; revert hn; decide)

theorem toLower_allowed (c : Char) (h : isAllowedChar c = true) :
    c.toLower = c := by
  have hn := allowedChar_toNat c h
  unfold Char.toLower
  rw [if_neg]
  omega

theorem collapseWsAux_id (b : Bool) (l : List Char)
    (h : ∀ c ∈ l, isJsWhitespace c = false) : collapseWsAux b l = l := by
  induction l generalizing b with
  | nil => rfl
  | cons c rest ih =>
    unfold collapseWsAux
    rw [if_neg (by
      rw [h c (List.mem_cons_self c rest)]
      exact Bool.false_ne_true)]
    rw [ih false (fun x hx => h x (List.mem_cons_of_mem _ hx))]

theorem mem_trimHyphens (l : List Char) (c : Char) (h : c ∈ trimHyphens l) :
    c ∈ l := by
  unfold trimHyphens at h
  rw [List.mem_reverse] at h
  have h1 := (List.dropWhile_suffix _).subset h
  rw [List.mem_reverse] at h1
  exact (List.dropWhile_suffix _).subset h1

theorem length_trimHyphens_le (l : List Char) :
    (trimHyphens l).length ≤ l.length := by
  unfold trimHyphens
  rw [List.length_reverse]
  refine le_trans ((List.dropWhile_suffix _).length_le) ?_
  rw [List.length_reverse]
  exact (List.dropWhile_suffix _).length_le

theorem head?_dropWhile_false (p : Char → Bool) (l : List Char) (a : Char)
    (h : (l.dropWhile p).head? = some a) : p a = false := by
  induction l with
  | nil => simp [List.dropWhile] at h
  | cons c rest ih =>
    rw [List.dropWhile_cons] at h
    by_cases hc : p c = true
    · rw [if_pos hc] at h
      exact ih h
    · rw [if_neg hc] at h
      have hca : c = a := by simpa using h
      subst hca
      exact Bool.eq_false_iff.mpr hc

theorem dropWhile_eq_self_of_head (p : Char → Bool) (l : List Char)
    (h : ∀ a, l.head? = some a → p a = false) : l.dropWhile p = l := by
  cases l with
  | nil => rfl
  | cons c rest =>
    rw [List.dropWhile_cons, if_neg]
    rw [h c rfl]
    exact Bool.false_ne_true

theorem trimHyphens_getLast? (l : List Char) (a : Char)
    (h : (trimHyphens l).getLast? = some a) : (a == '-') = false := by
  unfold trimHyphens at h
  rw [List.getLast?_reverse] at h
  exact head?_dropWhile_false (fun x => x == '-') _ a h

theorem trimHyphens_head? (l : List Char) (a : Char)
    (h : (trimHyphens l).head? = some a) : (a == '-') = false := by
  unfold trimHyphens at h
  have hpre : ((l.dropWhile (· == '-')).reverse.dropWhile (· == '-')).reverse
      <+: l.dropWhile (· == '-') := by
    have hsuf := List.dropWhile_suffix (l := (l.dropWhile (· == '-')).reverse)
      (· == '-')
    have h2 := List.reverse_prefix.mpr hsuf
    rwa [List.reverse_reverse] at h2
  obtain ⟨t, ht⟩ := hpre
  have hda : (l.dropWhile (· == '-')).head? = some a := by
    rw [← ht]
    cases hrev : ((l.dropWhile (· == '-')).reverse.dropWhile (· == '-')).reverse
      with
    | nil => rw [hrev] at h; simp at h
    | cons x xs =>
      rw [hrev] at h
      have hxa : x = a := by simpa using h
      subst hxa
      rfl
  exact head?_dropWhile_false (fun x => x == '-') _ a hda

theorem trimHyphens_eq_self (l : List Char)
    (hh : ∀ a, l.head? = some a → ((a == '-') = false))
    (hl : ∀ a, l.getLast? = some a → ((a == '-') = false)) :
    trimHyphens l = l := by
  unfold trimHyphens
  rw [dropWhile_eq_self_of_head _ _ hh]
  rw [dropWhile_eq_self_of_head _ _ (fun a ha =>
    hl a (by rwa [List.head?_reverse] at ha))]
  exact List.reverse_reverse l

/-- C9 counterexample: on the empty input string `sanitizeAgentName`
returns the empty string (the `if (!name) return ''` branch), not a
non-empty name — the `'agent'` fallback is never reached —, refuting
"for every input string … returns a non-empty string". -/
theorem sanitizeAgentName_empty_input :
    sanitizeAgentName "" = "" ∧ (sanitizeAgentName "").length = 0 := by
  decide

/-- C9 (amended): for every non-empty input, `sanitizeAgentName`
returns a non-empty string of at most 20 characters drawn from
`[a-z0-9-]` that neither starts nor ends with a hyphen, falling back to
`"agent"` when sanitization leaves nothing; and the function is
idempotent on every input (the empty input maps to the empty string,
which is a fixed point). -/
theorem sanitizeAgentName_spec (s : String) :
    (s ≠ "" →
      sanitizeAgentName s ≠ "" ∧
      (sanitizeAgentName s).length ≤ 20 ∧
      (∀ c ∈ (sanitizeAgentName s).data, isAllowedChar c = true) ∧
      (sanitizeAgentName s).data.head? ≠ some '-' ∧
      (sanitizeAgentName s).data.getLast? ≠ some '-') ∧
    sanitizeAgentName (sanitizeAgentName s) = sanitizeAgentName s := by
  by_cases hs : s = ""
  · subst hs
    exact ⟨fun h => absurd rfl h, by decide⟩
  · have hdef : sanitizeAgentName s =
        (if (trimHyphens (((collapseWs (s.data.map Char.toLower)).filter
            isAllowedChar).take 20)).isEmpty then "agent"
         else String.mk (trimHyphens (((collapseWs (s.data.map
            Char.toLower)).filter isAllowedChar).take 20))) := by
      unfold sanitizeAgentName
      rw [if_neg hs]
    by_cases he : (trimHyphens (((collapseWs (s.data.map Char.toLower)).filter
        isAllowedChar).take 20)).isEmpty = true
    · rw [if_pos he] at hdef
      rw [hdef]
      exact ⟨fun _ => ⟨by decide, by decide, by decide, by decide, by decide⟩,
        by decide⟩
    · rw [if_neg he] at hdef
      set s5 := trimHyphens (((collapseWs (s.data.map Char.toLower)).filter
        isAllowedChar).take 20) with hs5
      have hne : s5 ≠ [] := by
        intro hnil
        rw [hnil] at he
        exact he rfl
      have hall : ∀ c ∈ s5, isAllowedChar c = true := by
        intro c hc
        have h1 := mem_trimHyphens _ _ hc
        have h2 := List.take_subset 20 _ h1
        exact (List.mem_filter.mp h2).2
      have hlen : s5.length ≤ 20 := by
        refine le_trans (length_trimHyphens_le _) ?_
        exact List.length_take_le _ _
      have hhead : ∀ a, s5.head? = some a → (a == '-') = false :=
        fun a ha => trimHyphens_head? _ a ha
      have hlast : ∀ a, s5.getLast? = some a → (a == '-') = false :=
        fun a ha => trimHyphens_getLast? _ a ha
      have hmkne : String.mk s5 ≠ "" := by
        intro hmk
        exact hne (congrArg String.data hmk)
      rw [hdef]
      refine ⟨fun _ => ⟨hmkne, hlen, hall, ?_, ?_⟩, ?_⟩
      · intro hh
        exact absurd (hhead '-' hh) (by decide)
      · intro hh
        exact absurd (hlast '-' hh) (by decide)
      · -- idempotence on the non-fallback result
        unfold sanitizeAgentName
        rw [if_neg hmkne]
        have e1 : (String.mk s5).data.map Char.toLower = s5 := by
          show s5.map Char.toLower = s5
          rw [List.map_congr_left (fun c hc => toLower_allowed c (hall c hc))]
          exact List.map_id s5
        have e2 : collapseWs s5 = s5 :=
          collapseWsAux_id false s5 (fun c hc => allowed_not_ws c (hall c hc))
        have e3 : s5.filter isAllowedChar = s5 := List.filter_eq_self.mpr hall
        have e4 : s5.take 20 = s5 := List.take_of_length_le hlen
        have e5 : trimHyphens s5 = s5 := trimHyphens_eq_self s5 hhead hlast
        simp only [e1, e2, e3, e4, e5]
        rw [if_neg he]

/-- Witness for C9's amended theorem at a concrete mixed-case input
with whitespace and punctuation. -/
theorem sanitizeAgentName_spec_witness :
    sanitizeAgentName "My Agent!" ≠ "" ∧
    sanitizeAgentName "My Agent!" = "my-agent" ∧
    sanitizeAgentName (sanitizeAgentName "My Agent!") =
      sanitizeAgentName "My Agent!" :=
  ⟨((sanitizeAgentName_spec "My Agent!").1 (by decide)).1,
   by decide,
   (sanitizeAgentName_spec "My Agent!").2⟩
